import Mathlib

/-!
Shallow embedding of the LovingSpeechAroundtheWorld ledger core:
the block ledger (src/lib/blockchain.js), the relay selector
(src/lib/relaySelector.js), the directory registry
(src/modes/directory/state.js) and the relay write pipeline
(src/modes/relay/state.js).  The cryptographic hash is kept abstract as a
function parameter `H` from hashed block content to hex strings; every
claim proved here holds for an arbitrary `H`.
-/

namespace LSAW

/-- A letter entry stored inside a block (blockchain.js `letters` items). -/
structure Letter where
  ownerFingerprint : String
  payload : String
  deriving Repr, DecidableEq

/-- Opaque relay metrics attached to a block, modelled as key/value pairs. -/
abbrev RelayMetrics := List (String × String)

/-- A ledger block (blockchain.js).  `previousHash` is `none` for genesis,
mirroring the JS `null`. -/
structure Block where
  index : Nat
  timestamp : String
  previousHash : Option String
  letters : List Letter
  relayMetrics : RelayMetrics
  summary : String
  hash : String
  deriving Repr, DecidableEq

/-- The hashed content of a block: every field except `hash`
(crypto.js `buildBlockHash` copies the block and deletes `hash`). -/
structure BlockContent where
  index : Nat
  timestamp : String
  previousHash : Option String
  letters : List Letter
  relayMetrics : RelayMetrics
  summary : String
  deriving Repr, DecidableEq

/-- The hash-input view of a block, with the `hash` field removed. -/
def contentOf (b : Block) : BlockContent :=
  { index := b.index, timestamp := b.timestamp, previousHash := b.previousHash,
    letters := b.letters, relayMetrics := b.relayMetrics, summary := b.summary }

/-- crypto.js `buildBlockHash`: hash the block with its `hash` field removed.
`H` abstracts `hashPayload` (sha256 of the canonical JSON serialization). -/
def buildBlockHash (H : BlockContent → String) (b : Block) : String :=
  H (contentOf b)

/-- blockchain.js `createGenesisBlock`; the timestamp is passed in since the
JS reads the wall clock. -/
def createGenesisBlock (H : BlockContent → String) (timestamp : String) : Block :=
  let b : Block :=
    { index := 0, timestamp := timestamp, previousHash := none, letters := [],
      relayMetrics := [], summary := "Genesis block", hash := "" }
  { b with hash := buildBlockHash H b }

/-- blockchain.js `BlockStore.appendLetterBlock`.  The stored chain is the
explicit `blocks` argument; the JS reads `blocks[blocks.length - 1]`, which
crashes on an empty chain, so the empty case is `none`.  Returns the new
block together with the chain written back to the store. -/
def appendLetterBlock (H : BlockContent → String) (blocks : List Block)
    (letterPayload : String) (ownerFingerprint : String)
    (relayMetrics : RelayMetrics) (timestamp : String) :
    Option (Block × List Block) :=
  match blocks.getLast? with
  | none => none
  | some previousBlock =>
    let b : Block :=
      { index := previousBlock.index + 1, timestamp := timestamp,
        previousHash := some previousBlock.hash,
        letters := [{ ownerFingerprint := ownerFingerprint, payload := letterPayload }],
        relayMetrics := relayMetrics,
        summary := "Love letter for " ++ ownerFingerprint.take 8,
        hash := "" }
    let block := { b with hash := buildBlockHash H b }
    some (block, blocks ++ [block])

/-- Result shape of blockchain.js `BlockStore.validateChain`. -/
structure ChainValidation where
  ok : Bool
  reason : Option String
  deriving Repr, DecidableEq

/-- Validation of the tail of a chain, given the previous block: per block
first the recomputed hash is checked, then the link to the previous hash
(the body of the `for` loop in `validateChain` for `i > 0`). -/
def validateFrom (H : BlockContent → String) (prev : Block) :
    List Block → ChainValidation
  | [] => { ok := true, reason := none }
  | b :: rest =>
    if buildBlockHash H b ≠ b.hash then
      { ok := false, reason := some ("Hash mismatch at index " ++ toString b.index) }
    else if b.previousHash ≠ some prev.hash then
      { ok := false, reason := some ("Broken link at index " ++ toString b.index) }
    else validateFrom H b rest

/-- blockchain.js `BlockStore.validateChain`: an empty chain is rejected,
block 0 is checked for hash consistency only, and each later block for hash
consistency and the `previousHash` link. -/
def validateChain (H : BlockContent → String) : List Block → ChainValidation
  | [] => { ok := false, reason := some "Empty chain" }
  | b :: rest =>
    if buildBlockHash H b ≠ b.hash then
      { ok := false, reason := some ("Hash mismatch at index " ++ toString b.index) }
    else validateFrom H b rest

/-- Result object of blockchain.js `BlockStore.syncFromRemote`. -/
structure SyncResult where
  updated : Bool
  message : String
  deriving Repr, DecidableEq

/-- blockchain.js `BlockStore.syncFromRemote`.  The pair returned is the
outcome (a thrown error or the `{updated, message}` result) together with
the chain stored after the call: on a throw or a rejected shorter chain the
store is untouched, on acceptance the chain is replaced by `remoteBlocks`. -/
def syncFromRemote (H : BlockContent → String) (localBlocks remoteBlocks : List Block)
    (force : Bool) : Except String SyncResult × List Block :=
  let validation := validateChain H remoteBlocks
  if validation.ok then
    if !force && remoteBlocks.length ≤ localBlocks.length then
      (Except.ok { updated := false, message := "Remote chain not longer than local" },
        localBlocks)
    else
      (Except.ok
        { updated := true,
          message :=
            if force then "Chain replaced with remote copy (forced)"
            else "Chain replaced with remote copy" },
        remoteBlocks)
  else
    (Except.error ("Remote chain invalid: " ++ validation.reason.getD "undefined"),
      localBlocks)

/-- A candidate relay as seen by relaySelector.js: the metric fields that
`scoreRelay` reads, plus the onion identity used elsewhere.  `none` models a
missing (`undefined`/`null`) JS field. -/
structure RelayInfo where
  onion : String
  latencyMs : Option ℚ
  reachability : Option ℚ
  chainFreshness : Option ℚ
  gfwBlocked : Bool
  deriving Repr, DecidableEq

/-- relaySelector.js `scoreRelay`: weighted combination of latency,
reachability and freshness, scaled down by the GFW penalty.  Note the JS
`relay.latencyMs ?? 1500` substitutes 1500 only when the field is missing;
a present value, zero or negative included, is used as-is. -/
def scoreRelay (r : RelayInfo) : ℚ :=
  let latency := r.latencyMs.getD 1500
  let latencyScore := max 0 (1 - min latency 3000 / 3000)
  let reachabilityScore := r.reachability.getD (1 / 2)
  let freshnessScore := r.chainFreshness.getD (1 / 2)
  let gfwPenalty : ℚ := if r.gfwBlocked then 1 / 5 else 1
  (latencyScore * (1 / 2) + reachabilityScore * (1 / 4) + freshnessScore * (1 / 4))
    * gfwPenalty

/-- The running best of the stable descending sort in `selectBestRelay`:
walking the list, a candidate displaces the current best exactly when its
score is strictly greater, so the first element of maximal score wins, as
the stable `sort((a, b) => b.score - a.score)` followed by `[0]` does. -/
def selectBest (best : RelayInfo) : List RelayInfo → RelayInfo
  | [] => best
  | c :: rest => selectBest (if scoreRelay best < scoreRelay c then c else best) rest

/-- relaySelector.js `selectBestRelay`: the head of the input list stably
sorted by descending score, `none` on an empty list. -/
def selectBestRelay : List RelayInfo → Option RelayInfo
  | [] => none
  | r :: rest => some (selectBest r rest)

/-- Modelled from the spec: the scoring formula as the spec states it,
which in addition treats a `latencyMs` value ≤ 0 as 1500 ms.  Kept separate
from `scoreRelay` (the code) to compare the two. -/
def scoreRelaySpec (r : RelayInfo) : ℚ :=
  let latency :=
    match r.latencyMs with
    | none => (1500 : ℚ)
    | some v => if v ≤ 0 then 1500 else v
  let latencyScore := max 0 (1 - min latency 3000 / 3000)
  let reachabilityScore := r.reachability.getD (1 / 2)
  let freshnessScore := r.chainFreshness.getD (1 / 2)
  let gfwPenalty : ℚ := if r.gfwBlocked then 1 / 5 else 1
  (latencyScore * (1 / 2) + reachabilityScore * (1 / 4) + freshnessScore * (1 / 4))
    * gfwPenalty

/-- A JSON field of a received object, distinguishing the three states a
key can be in: absent from the object, present with value `null`, or
present with a value.  The distinction matters because an object spread
`{...a, ...b}` keeps `a`'s value only for keys absent from `b` — a present
`null` overwrites — while `??` and the falsiness checks treat `null` and
absent alike. -/
inductive JsonField (α : Type) where
  | absent
  | nullVal
  | value (a : α)
  deriving Repr, DecidableEq

/-- A chain summary / manifest as produced by blockchain.js
`getChainSummary` and exchanged with the directory.  The `length` field is
part of the payload (the directory compares the reported `length` field,
not the hash count). -/
structure ChainSummary where
  length : Nat
  hashes : List String
  latestHash : Option String
  checksum : String
  deriving Repr, DecidableEq

/-- Result of directory/state.js `compareManifests`: which of the optional
diagnostic fields is set records which branch returned. -/
structure Comparison where
  isMatch : Bool
  divergeAt : Option Nat
  missing : Option (List String)
  missingCount : Option Nat
  deriving Repr, DecidableEq

/-- Index of the first position, within the common length of the two lists,
where they differ (the scan loop of `compareManifests`); `none` when they
agree on the whole common prefix. -/
def firstDiverge : List String → List String → Option Nat
  | x :: xs, y :: ys =>
    if x ≠ y then some 0 else (firstDiverge xs ys).map (· + 1)
  | _, _ => none

/-- directory/state.js `compareManifests`.  An empty canonical matches
everything; an empty, `null` or absent candidate against a non-empty
canonical returns the `missing` branch (`candidate?.hashes?.length` is
falsy in all three cases; note: `missing`, not `missingCount`); a
divergence within the common length returns `divergeAt`; a strictly
shorter agreeing candidate returns `missingCount`. -/
def compareManifests (canonical : ChainSummary) (candidate : JsonField ChainSummary) :
    Comparison :=
  if canonical.hashes.length = 0 then
    { isMatch := true, divergeAt := none, missing := none, missingCount := none }
  else
    match candidate with
    | JsonField.absent =>
      { isMatch := false, divergeAt := none, missing := some canonical.hashes,
        missingCount := none }
    | JsonField.nullVal =>
      { isMatch := false, divergeAt := none, missing := some canonical.hashes,
        missingCount := none }
    | JsonField.value c =>
      if c.hashes.length = 0 then
        { isMatch := false, divergeAt := none, missing := some canonical.hashes,
          missingCount := none }
      else
        match firstDiverge canonical.hashes c.hashes with
        | some i =>
          { isMatch := false, divergeAt := some i, missing := none,
            missingCount := none }
        | none =>
          if c.hashes.length < canonical.hashes.length then
            { isMatch := false, divergeAt := none, missing := none,
              missingCount := some (canonical.hashes.length - c.hashes.length) }
          else
            { isMatch := true, divergeAt := none, missing := none,
              missingCount := none }

/-- The `syncStatus` object stored on a relay record by `upsertRelay`. -/
structure SyncStatus where
  needsSync : Bool
  needsRepair : Bool
  details : Comparison
  deriving Repr, DecidableEq

/-- The `syncStatus` computed in `upsertRelay`:
`needsSync = Boolean(comparison.missingCount)` and
`needsRepair = comparison.matches === false && !comparison.missingCount`
(JS truthiness of the optional number). -/
def mkSyncStatus (comparison : Comparison) : SyncStatus :=
  { needsSync := comparison.missingCount.getD 0 != 0,
    needsRepair := (comparison.isMatch == false) && (comparison.missingCount.getD 0 == 0),
    details := comparison }

/-- A heartbeat payload as received by the directory's POST `/api/relays`
route (request body plus the server-added `lastSeenIp`/`connectionMeta`).
Each field is a `JsonField`: the body is arbitrary JSON, so every key can
be absent, `null`, or carry a value, and the three states behave
differently under the object spread in `upsertRelay`. -/
structure RelayPayload where
  onion : String
  publicUrl : JsonField String
  publicAccessUrl : JsonField String
  nickname : JsonField String
  fingerprint : JsonField String
  lastSeenIp : JsonField String
  latencyMs : JsonField ℚ
  reachability : JsonField ℚ
  gfwBlocked : JsonField Bool
  chainSummary : JsonField ChainSummary
  connectionMeta : JsonField (List (String × String))
  deriving Repr, DecidableEq

/-- A relay record stored in the directory registry.  The payload-derived
fields keep the `JsonField` three-state view (an inserted record lacks the
keys its payload lacked); `syncStatus` is `Option` since the code always
assigns it a value before the record is stored. -/
structure RelayRecord where
  id : String
  onion : String
  publicUrl : JsonField String
  publicAccessUrl : JsonField String
  nickname : JsonField String
  fingerprint : JsonField String
  lastSeenIp : JsonField String
  latencyMs : JsonField ℚ
  reachability : JsonField ℚ
  gfwBlocked : JsonField Bool
  chainSummary : JsonField ChainSummary
  connectionMeta : JsonField (List (String × String))
  createdAt : String
  lastSeen : String
  syncStatus : Option SyncStatus
  deriving Repr, DecidableEq

/-- JS object-spread semantics for one field of `{...existing, ...payload}`:
a key present in the payload — with a value or with `null` — overrides the
existing one; only an absent key keeps it. -/
def spreadField {α : Type} (old new : JsonField α) : JsonField α :=
  match new with
  | JsonField.absent => old
  | JsonField.nullVal => JsonField.nullVal
  | JsonField.value v => JsonField.value v

/-- JS object-spread union of two key/value maps, right-biased:
keys only in `old` keep their values, keys in `new` take `new`'s value. -/
def mergeMeta (old new : List (String × String)) : List (String × String) :=
  old.filter (fun kv => !(new.any (fun kv2 => kv2.1 == kv.1))) ++ new

/-- The entries an operand contributes to an object spread: a `null` or
absent operand spreads as nothing (`{...undefined}` and `{...null}` are
both `{}`). -/
def metaOrEmpty (m : JsonField (List (String × String))) : List (String × String) :=
  match m with
  | JsonField.value l => l
  | _ => []

/-- The merge branch of `upsertRelay`:
`{...existing, ...payload, connectionMeta: {...existing.connectionMeta,
...payload.connectionMeta}, lastSeen: now}`.  The explicit `connectionMeta`
property always produces a present object, even when both operands are
absent or `null`. -/
def mergeRecordWithPayload (e : RelayRecord) (p : RelayPayload) (now : String) :
    RelayRecord :=
  { id := e.id, createdAt := e.createdAt, onion := p.onion,
    publicUrl := spreadField e.publicUrl p.publicUrl,
    publicAccessUrl := spreadField e.publicAccessUrl p.publicAccessUrl,
    nickname := spreadField e.nickname p.nickname,
    fingerprint := spreadField e.fingerprint p.fingerprint,
    lastSeenIp := spreadField e.lastSeenIp p.lastSeenIp,
    latencyMs := spreadField e.latencyMs p.latencyMs,
    reachability := spreadField e.reachability p.reachability,
    gfwBlocked := spreadField e.gfwBlocked p.gfwBlocked,
    chainSummary := spreadField e.chainSummary p.chainSummary,
    connectionMeta :=
      JsonField.value (mergeMeta (metaOrEmpty e.connectionMeta) (metaOrEmpty p.connectionMeta)),
    lastSeen := now,
    syncStatus := e.syncStatus }

/-- The insert branch of `upsertRelay`: a fresh record built from the
payload; `payload.fingerprint || generateFingerprint(...)` falls back to the
generated fingerprint `genFp` when the payload one is absent, `null` or the
empty string (JS falsiness); the other fields are taken from the payload
as-is (keys the payload lacks stay absent). -/
def freshRecordFromPayload (p : RelayPayload) (now genFp : String) : RelayRecord :=
  let resolvedFingerprint :=
    match p.fingerprint with
    | JsonField.value f => if f = "" then genFp else f
    | _ => genFp
  { id := p.onion, createdAt := now, lastSeen := now, onion := p.onion,
    publicUrl := p.publicUrl, publicAccessUrl := p.publicAccessUrl,
    nickname := p.nickname, fingerprint := JsonField.value resolvedFingerprint,
    lastSeenIp := p.lastSeenIp, latencyMs := p.latencyMs,
    reachability := p.reachability, gfwBlocked := p.gfwBlocked,
    chainSummary := p.chainSummary, connectionMeta := p.connectionMeta,
    syncStatus := none }

/-- directory/state.js `updateCanonicalManifest`: a `null` or absent
candidate is returned unchanged (`if (!candidateSummary)`), and a present
summary replaces the canonical manifest only when its `length` field is
strictly greater. -/
def updateCanonicalManifest (current : ChainSummary) (candidate : JsonField ChainSummary) :
    ChainSummary :=
  match candidate with
  | JsonField.value c => if current.length < c.length then c else current
  | _ => current

/-- Directory registry state: the relay list and the canonical manifest. -/
structure DirState where
  relays : List RelayRecord
  canonicalManifest : ChainSummary
  deriving Repr, DecidableEq

/-- directory/state.js `DirectoryState.upsertRelay`, keyed on `onion`:
merge into the existing record or insert a fresh one, update the canonical
manifest, recompute `syncStatus` against the updated canonical, and write
the record back.  `now` models `new Date().toISOString()` and `genFp` the
randomly generated fingerprint.  Returns the new state and the record. -/
def upsertRelay (st : DirState) (p : RelayPayload) (now genFp : String) :
    DirState × RelayRecord :=
  let found := st.relays.find? (fun r => r.onion == p.onion)
  let record :=
    match found with
    | some e => mergeRecordWithPayload e p now
    | none => freshRecordFromPayload p now genFp
  let baseRelays :=
    match found with
    | some _ => st.relays
    | none => st.relays ++ [record]
  let canonicalManifest := updateCanonicalManifest st.canonicalManifest record.chainSummary
  let comparison := compareManifests canonicalManifest record.chainSummary
  let record' := { record with syncStatus := some (mkSyncStatus comparison) }
  let relays := baseRelays.map (fun r => if r.onion == record'.onion then record' else r)
  ({ relays := relays, canonicalManifest := canonicalManifest }, record')

/-- A sequence of `upsertRelay` calls applied to the directory state; each
list element carries the payload, timestamp and generated fingerprint of
one call. -/
def applyUpserts (st : DirState) : List (RelayPayload × String × String) → DirState
  | [] => st
  | (p, now, genFp) :: rest => applyUpserts (upsertRelay st p now genFp).1 rest

/-- The relay chosen by sync.js `chooseRelay` (a directory record; only
`onion` and `publicUrl` are read by `syncFromDirectory`). -/
structure RelayChoice where
  onion : String
  publicUrl : Option String
  deriving Repr, DecidableEq

/-- Outcome of relay/state.js `syncFromDirectory`: either a skipped result
with its optional `reason`, or the completed `syncFromRemote` result. -/
inductive SyncOutcome where
  | skipped (reason : Option String)
  | completed (result : SyncResult)
  deriving Repr, DecidableEq

/-- Conflict report of relay/state.js `detectChainConflict` (the
`localBlocks` field, used only for the on-disk snapshot, is omitted). -/
structure Conflict where
  divergeAt : Nat
  orphanedBlocks : List Block
  localHeight : Nat
  remoteHeight : Nat
  shouldReplace : Bool
  deriving Repr, DecidableEq

/-- relay/state.js `detectChainConflict`: scan the common prefix of the two
chains for a hash mismatch; on the first mismatch report the divergence
point, the orphaned local suffix, and whether the remote is long enough to
replace the local chain. -/
def detectChainConflict (localBlocks remoteBlocks : List Block) : Option Conflict :=
  if remoteBlocks.length = 0 then none
  else if localBlocks.length = 0 then none
  else
    match firstDiverge (localBlocks.map Block.hash) (remoteBlocks.map Block.hash) with
    | none => none
    | some i =>
      some
        { divergeAt := i, orphanedBlocks := localBlocks.drop i,
          localHeight := localBlocks.length, remoteHeight := remoteBlocks.length,
          shouldReplace := localBlocks.length ≤ remoteBlocks.length }

/-- relay/state.js `syncFromDirectory`.  The network effects are passed in:
`chosen` is the result of `chooseRelay(directoryUrl)` and `fetched` the
relay's `/api/blocks/full` response (`none` when `safeFetch` failed or the
body had no `blocks`).  Returns the outcome (or the error thrown out of
`syncFromRemote`) together with the chain stored after the call. -/
def syncFromDirectory (H : BlockContent → String) (directoryUrl : Option String)
    (selfOnion : String) (chosen : Option RelayChoice)
    (fetched : Option (List Block)) (localBlocks : List Block) :
    Except String SyncOutcome × List Block :=
  match directoryUrl with
  | none => (Except.ok (SyncOutcome.skipped none), localBlocks)
  | some _ =>
    match chosen with
    | none =>
      (Except.ok (SyncOutcome.skipped (some "No alternate relay available")), localBlocks)
    | some relay =>
      if relay.onion = selfOnion then
        (Except.ok (SyncOutcome.skipped (some "No alternate relay available")), localBlocks)
      else if relay.publicUrl.getD relay.onion = "" then
        (Except.ok (SyncOutcome.skipped (some "Relay lacks URL")), localBlocks)
      else
        match fetched with
        | none =>
          (Except.ok (SyncOutcome.skipped (some "Failed to fetch blocks")), localBlocks)
        | some remoteBlocks =>
          let conflict := detectChainConflict localBlocks remoteBlocks
          let force := (conflict.map Conflict.shouldReplace).getD false
          match syncFromRemote H localBlocks remoteBlocks force with
          | (Except.error e, blocks) => (Except.error e, blocks)
          | (Except.ok r, blocks) => (Except.ok (SyncOutcome.completed r), blocks)

/-- An error surfaced by the write pipeline, with its HTTP-style status
tag (the JS attaches `statusCode` to the thrown `Error`). -/
structure PreWriteError where
  message : String
  statusCode : Nat
  deriving Repr, DecidableEq

/-- The `result.reason || '未知原因'` fallback (JS falsiness: an absent or
empty reason both yield the placeholder). -/
def reasonOrUnknown (reason : Option String) : String :=
  match reason with
  | some r => if r = "" then "未知原因" else r
  | none => "未知原因"

/-- relay/state.js `ensureFreshChainBeforeWrite`.  With no `directoryUrl`
configured it returns the skipped result (it does not throw).  Otherwise it
runs `syncFromDirectory`; a skipped result with any reason other than
exactly "No alternate relay available" becomes a thrown 503, and any error
out of the sync becomes a generic 503. -/
def ensureFreshChainBeforeWrite (H : BlockContent → String)
    (directoryUrl : Option String) (selfOnion : String)
    (chosen : Option RelayChoice) (fetched : Option (List Block))
    (localBlocks : List Block) : Except PreWriteError SyncOutcome × List Block :=
  match directoryUrl with
  | none =>
    (Except.ok (SyncOutcome.skipped (some "No directory configured")), localBlocks)
  | some u =>
    match syncFromDirectory H (some u) selfOnion chosen fetched localBlocks with
    | (Except.error _, blocks) =>
      (Except.error { message := "写入前无法同步链数据，请稍后重试", statusCode := 503 }, blocks)
    | (Except.ok (SyncOutcome.skipped reason), blocks) =>
      if reason == some "No alternate relay available" then
        (Except.ok (SyncOutcome.skipped reason), blocks)
      else
        (Except.error
          { message := "写入前同步被阻止: " ++ reasonOrUnknown reason, statusCode := 503 },
          blocks)
    | (Except.ok (SyncOutcome.completed r), blocks) =>
      (Except.ok (SyncOutcome.completed r), blocks)

/-- A queued letter submission (relay/state.js `enqueueLetter` entries). -/
structure QueueEntry where
  id : String
  letterPayload : String
  ownerFingerprint : String
  relayMetrics : RelayMetrics
  enqueuedAt : String
  attempts : Nat
  deriving Repr, DecidableEq

/-- relay/state.js `processQueueEntry`: run the pre-write sync, then append
the letter's block to the (possibly synced) chain.  The inner `Option` is
`none` exactly when the chain is empty, where the JS would crash; the
post-block directory report is fire-and-forget and not modelled.  Returns
the appended block and the new chain. -/
def processQueueEntry (H : BlockContent → String) (directoryUrl : Option String)
    (selfOnion : String) (chosen : Option RelayChoice)
    (fetched : Option (List Block)) (localBlocks : List Block)
    (entry : QueueEntry) (timestamp : String) :
    Except PreWriteError (Option (Block × List Block)) :=
  match ensureFreshChainBeforeWrite H directoryUrl selfOnion chosen fetched localBlocks with
  | (Except.error e, _) => Except.error e
  | (Except.ok _, syncedBlocks) =>
    Except.ok
      (appendLetterBlock H syncedBlocks entry.letterPayload entry.ownerFingerprint
        entry.relayMetrics timestamp)

/-- What one iteration of the relay's `drainQueue` loop did. -/
inductive QueueStepOutcome where
  | idle
  | resolved (id : String) (block : Block)
  | dropped (id : String) (e : PreWriteError)
  | retried
  | crashed (id : String)
  deriving Repr, DecidableEq

/-- One iteration of relay/state.js `drainQueue`: process the head entry;
on success shift it off and resolve its waiter with the block; on a
retryable error (`statusCode === 503`) leave it at the head; on any other
error shift it off and reject its waiter.  `crashed` marks the
empty-chain JS crash path (unreachable once the store is initialized). -/
def drainStep (H : BlockContent → String) (directoryUrl : Option String)
    (selfOnion : String) (chosen : Option RelayChoice)
    (fetched : Option (List Block)) (localBlocks : List Block)
    (queue : List QueueEntry) (timestamp : String) :
    List QueueEntry × List Block × QueueStepOutcome :=
  match queue with
  | [] => ([], localBlocks, QueueStepOutcome.idle)
  | entry :: rest =>
    match processQueueEntry H directoryUrl selfOnion chosen fetched localBlocks
        entry timestamp with
    | Except.ok (some (block, newChain)) =>
      (rest, newChain, QueueStepOutcome.resolved entry.id block)
    | Except.ok none => (entry :: rest, localBlocks, QueueStepOutcome.crashed entry.id)
    | Except.error e =>
      if e.statusCode == 503 then (entry :: rest, localBlocks, QueueStepOutcome.retried)
      else (rest, localBlocks, QueueStepOutcome.dropped entry.id e)

/-- Modelled from the spec: two manifests "agree up to the shorter length"
when their hash lists coincide at every index below the minimum of the two
lengths. -/
def hashesAgree (xs ys : List String) : Bool :=
  (List.range (min xs.length ys.length)).all (fun i => xs[i]? == ys[i]?)

/-- Modelled from the (amended) spec: the `(needsSync, needsRepair)`
classification of a relay manifest `candH` against the canonical manifest
`canonH`: an empty canonical matches everything; an empty relay manifest
against a non-empty canonical needs repair; agreement up to the shorter
length with a strictly shorter relay manifest needs sync; divergence needs
repair; otherwise neither. -/
def specSyncFlags (canonH candH : List String) : Bool × Bool :=
  if canonH.isEmpty then (false, false)
  else if candH.isEmpty then (false, true)
  else if hashesAgree canonH candH then
    (if candH.length < canonH.length then (true, false) else (false, false))
  else (false, true)

/-- The canonical manifest hashes after an upsert. -/
def upsertCanonHashes (st : DirState) (p : RelayPayload) (now genFp : String) :
    List String :=
  (upsertRelay st p now genFp).1.canonicalManifest.hashes

/-- The hashes of a possibly `null` or absent chain summary field (empty
in both degenerate cases, matching `candidate?.hashes`). -/
def summaryHashes (cand : JsonField ChainSummary) : List String :=
  match cand with
  | JsonField.value c => c.hashes
  | _ => []

/-- The stored relay record's manifest hashes after an upsert (empty when
the record carries no chain summary, or a `null` one). -/
def upsertCandHashes (st : DirState) (p : RelayPayload) (now genFp : String) :
    List String :=
  summaryHashes ((upsertRelay st p now genFp).2.chainSummary)

/-! Concrete sample values used to evaluate the definitions on closed
inputs.  `constHash` is a degenerate but perfectly legal instantiation of
the abstract hash parameter. -/

/-- A concrete hash function instance for closed evaluations. -/
def constHash : BlockContent → String := fun _ => "h"

/-- A concrete genesis block under `constHash`. -/
def genesisT0 : Block := createGenesisBlock constHash "t0"

/-- A hand-built successor block of `genesisT0`, valid under `constHash`. -/
def blockB1 : Block :=
  { genesisT0 with index := 1, timestamp := "t1", previousHash := some genesisT0.hash }

/-- A valid two-block chain under `constHash`. -/
def twoChain : List Block := [genesisT0, blockB1]

/-- The block `appendLetterBlock` produces on `[genesisT0]` for letter
"ENV1" owned by "FP1" at time "t1". -/
def appendedB1 : Block :=
  { index := 1, timestamp := "t1", previousHash := some genesisT0.hash,
    letters := [{ ownerFingerprint := "FP1", payload := "ENV1" }],
    relayMetrics := [], summary := "Love letter for FP1", hash := "h" }

/-- A concrete queued letter entry. -/
def entryE1 : QueueEntry :=
  { id := "e1", letterPayload := "ENV1", ownerFingerprint := "FP1",
    relayMetrics := [], enqueuedAt := "t0", attempts := 0 }

/-- The directory's default canonical manifest
(`{ hashes: [], length: 0, checksum: '', latestHash: '' }`). -/
def emptyCanonical : ChainSummary :=
  { length := 0, hashes := [], latestHash := some "", checksum := "" }

/-- A fresh directory state. -/
def dirSt0 : DirState := { relays := [], canonicalManifest := emptyCanonical }

/-- A one-block chain summary. -/
def summary1 : ChainSummary :=
  { length := 1, hashes := ["h"], latestHash := some "h", checksum := "c1" }

/-- An empty chain summary as a relay might report it. -/
def summary0 : ChainSummary :=
  { length := 0, hashes := [], latestHash := none, checksum := "c0" }

/-- A concrete heartbeat payload reporting a one-block chain. -/
def payloadP1 : RelayPayload :=
  { onion := "o1", publicUrl := JsonField.value "http://r1",
    publicAccessUrl := JsonField.absent, nickname := JsonField.absent,
    fingerprint := JsonField.value "F1", lastSeenIp := JsonField.absent,
    latencyMs := JsonField.value 100, reachability := JsonField.value 1,
    gfwBlocked := JsonField.value false, chainSummary := JsonField.value summary1,
    connectionMeta := JsonField.value [] }

/-- A heartbeat payload whose fingerprint is present but empty. -/
def payloadEmptyFp : RelayPayload :=
  { onion := "o2", publicUrl := JsonField.absent, publicAccessUrl := JsonField.absent,
    nickname := JsonField.absent, fingerprint := JsonField.value "",
    lastSeenIp := JsonField.absent, latencyMs := JsonField.absent,
    reachability := JsonField.absent, gfwBlocked := JsonField.absent,
    chainSummary := JsonField.absent, connectionMeta := JsonField.value [] }

/-- A heartbeat payload whose fingerprint is present with value `null`. -/
def payloadNullFp : RelayPayload :=
  { onion := "o4", publicUrl := JsonField.absent, publicAccessUrl := JsonField.absent,
    nickname := JsonField.absent, fingerprint := JsonField.nullVal,
    lastSeenIp := JsonField.absent, latencyMs := JsonField.absent,
    reachability := JsonField.absent, gfwBlocked := JsonField.absent,
    chainSummary := JsonField.absent, connectionMeta := JsonField.value [] }

/-- A heartbeat payload carrying no `connectionMeta` key at all. -/
def payloadNoMeta : RelayPayload :=
  { onion := "o5", publicUrl := JsonField.absent, publicAccessUrl := JsonField.absent,
    nickname := JsonField.absent, fingerprint := JsonField.value "F5",
    lastSeenIp := JsonField.absent, latencyMs := JsonField.absent,
    reachability := JsonField.absent, gfwBlocked := JsonField.absent,
    chainSummary := JsonField.absent, connectionMeta := JsonField.absent }

/-- A heartbeat payload reporting an empty chain summary. -/
def payloadEmptySummary : RelayPayload :=
  { onion := "o3", publicUrl := JsonField.absent, publicAccessUrl := JsonField.absent,
    nickname := JsonField.absent, fingerprint := JsonField.value "F3",
    lastSeenIp := JsonField.absent, latencyMs := JsonField.absent,
    reachability := JsonField.absent, gfwBlocked := JsonField.absent,
    chainSummary := JsonField.value summary0, connectionMeta := JsonField.value [] }

/-- A directory state whose canonical manifest already has one hash. -/
def dirStC8 : DirState := { relays := [], canonicalManifest := summary1 }

/-- A relay whose reported latency is exactly 0 ms. -/
def relayZeroLatency : RelayInfo :=
  { onion := "a", latencyMs := some 0, reachability := some 0,
    chainFreshness := some 0, gfwBlocked := false }

/-- A relay with a 1400 ms latency. -/
def relaySlow : RelayInfo :=
  { onion := "b", latencyMs := some 1400, reachability := some 0,
    chainFreshness := some 0, gfwBlocked := false }

/-! Theorems. -/

/-- Helper: the full characterization of `appendLetterBlock` on a chain
with a known last block, shared by several claims. -/
theorem append_spec (H : BlockContent → String) (blocks : List Block) (prev : Block)
    (payload fp : String) (metrics : RelayMetrics) (ts : String)
    (h : blocks.getLast? = some prev) :
    ∃ block,
      appendLetterBlock H blocks payload fp metrics ts = some (block, blocks ++ [block]) ∧
      block.index = prev.index + 1 ∧
      block.previousHash = some prev.hash ∧
      block.letters = [{ ownerFingerprint := fp, payload := payload }] ∧
      block.hash = buildBlockHash H block := by
  simp only [appendLetterBlock, h]
  exact ⟨_, rfl, rfl, rfl, rfl, rfl⟩

/-- C1: on every chain ending in block `prev`, `appendLetterBlock` appends
exactly one block and returns it; that block has `index = prev.index + 1`,
`previousHash = prev.hash`, a single letter entry
`{ownerFingerprint, payload}`, and a hash equal to `buildBlockHash` of the
block itself; the earlier blocks are unchanged (the new chain is the old
one with the block appended). -/
theorem c1_appendLetterBlock_appends (H : BlockContent → String) (blocks : List Block)
    (prev : Block) (payload fp : String) (metrics : RelayMetrics) (ts : String)
    (h : blocks.getLast? = some prev) :
    ∃ block,
      appendLetterBlock H blocks payload fp metrics ts = some (block, blocks ++ [block]) ∧
      block.index = prev.index + 1 ∧
      block.previousHash = some prev.hash ∧
      block.letters = [{ ownerFingerprint := fp, payload := payload }] ∧
      block.hash = buildBlockHash H block :=
  append_spec H blocks prev payload fp metrics ts h

/-- Witness for C1: the fresh-relay scenario, appending letter "ENV1" of
owner "FP1" onto the genesis chain. -/
theorem c1_witness :
    ∃ block,
      appendLetterBlock constHash [genesisT0] "ENV1" "FP1" [] "t1" =
        some (block, [genesisT0] ++ [block]) ∧
      block.index = genesisT0.index + 1 ∧
      block.previousHash = some genesisT0.hash ∧
      block.letters = [{ ownerFingerprint := "FP1", payload := "ENV1" }] ∧
      block.hash = buildBlockHash constHash block :=
  c1_appendLetterBlock_appends constHash [genesisT0] genesisT0 "ENV1" "FP1" [] "t1"
    (by decide)

/-- C10: `buildBlockHash` does not read the stored `hash` field, so the
genesis block's stored hash equals its recomputed hash, and the fresh
one-block chain passes `validateChain`. -/
theorem c10_buildBlockHash_ignores_hash (H : BlockContent → String) (b : Block)
    (h1 h2 : String) (ts : String) :
    buildBlockHash H { b with hash := h1 } = buildBlockHash H { b with hash := h2 } ∧
    (createGenesisBlock H ts).hash = buildBlockHash H (createGenesisBlock H ts) ∧
    (validateChain H [createGenesisBlock H ts]).ok = true := by
  refine ⟨rfl, rfl, ?_⟩
  simp [validateChain, validateFrom, createGenesisBlock, buildBlockHash, contentOf]

/-- C3: for a valid remote chain, `syncFromRemote` without `force` keeps
the local chain and reports `updated = false` when the remote is not
strictly longer, and replaces the stored chain with exactly the remote one
reporting `updated = true` when it is; with `force` a valid remote always
replaces the stored chain. -/
theorem c3_syncFromRemote_spec (H : BlockContent → String) (L r : List Block)
    (h : (validateChain H r).ok = true) :
    (r.length ≤ L.length →
      syncFromRemote H L r false =
        (Except.ok { updated := false, message := "Remote chain not longer than local" },
          L)) ∧
    (L.length < r.length →
      syncFromRemote H L r false =
        (Except.ok { updated := true, message := "Chain replaced with remote copy" },
          r)) ∧
    syncFromRemote H L r true =
      (Except.ok { updated := true, message := "Chain replaced with remote copy (forced)" },
        r) := by
  refine ⟨fun hle => ?_, fun hlt => ?_, ?_⟩
  · simp [syncFromRemote, h, hle]
  · simp [syncFromRemote, h, Nat.not_le.mpr hlt]
  · simp [syncFromRemote, h]

/-- Witness for C3: a valid two-block remote chain replaces a one-block
local chain. -/
theorem c3_witness :
    (validateChain constHash twoChain).ok = true ∧
    syncFromRemote constHash [genesisT0] twoChain false =
      (Except.ok { updated := true, message := "Chain replaced with remote copy" },
        twoChain) :=
  ⟨by decide,
    (c3_syncFromRemote_spec constHash [genesisT0] twoChain (by decide)).2.1 (by decide)⟩

/-- Counterexample for C5: with an empty `remoteBlocks` list,
`syncFromRemote` does not return `{updated: false}`; it throws
"Remote chain invalid: Empty chain" (the error escapes to the caller),
though the local chain is indeed unchanged. -/
theorem c5_counterexample :
    syncFromRemote constHash [genesisT0] [] false =
      (Except.error "Remote chain invalid: Empty chain", [genesisT0]) := by
  rfl

/-- C5 as amended: an empty remote chain makes `syncFromRemote` throw
"Remote chain invalid: Empty chain" (for any local chain and any `force`),
and the local chain is left unchanged. -/
theorem c5_amended_empty_remote_throws (H : BlockContent → String)
    (localBlocks : List Block) (force : Bool) :
    syncFromRemote H localBlocks [] force =
      (Except.error "Remote chain invalid: Empty chain", localBlocks) := by
  simp [syncFromRemote, validateChain]

/-- Counterexample for C2: with no directory configured,
`ensureFreshChainBeforeWrite` does not fail with a 503 — it returns the
skipped result — and processing the queued letter proceeds to append the
block to the ledger on that very attempt. -/
theorem c2_counterexample :
    ensureFreshChainBeforeWrite constHash none "relay.local" none none [genesisT0] =
      (Except.ok (SyncOutcome.skipped (some "No directory configured")), [genesisT0]) ∧
    processQueueEntry constHash none "relay.local" none none [genesisT0] entryE1 "t1" =
      Except.ok (some (appendedB1, [genesisT0, appendedB1])) := by
  exact ⟨rfl, rfl⟩

/-- C2 as amended: when no directory is configured, the pre-write sync
step returns `{skipped, reason: "No directory configured"}` without
raising any error, and processing a queued letter proceeds to append its
block to the ledger on that attempt (the write is not blocked). -/
theorem c2_amended_no_directory_write_proceeds (H : BlockContent → String)
    (selfOnion : String) (chosen : Option RelayChoice) (fetched : Option (List Block))
    (blocks : List Block) (prev : Block) (entry : QueueEntry) (ts : String)
    (h : blocks.getLast? = some prev) :
    ensureFreshChainBeforeWrite H none selfOnion chosen fetched blocks =
      (Except.ok (SyncOutcome.skipped (some "No directory configured")), blocks) ∧
    ∃ block,
      processQueueEntry H none selfOnion chosen fetched blocks entry ts =
        Except.ok (some (block, blocks ++ [block])) ∧
      block.letters =
        [{ ownerFingerprint := entry.ownerFingerprint, payload := entry.letterPayload }] := by
  refine ⟨rfl, ?_⟩
  obtain ⟨block, happ, _, _, hlet, _⟩ :=
    append_spec H blocks prev entry.letterPayload entry.ownerFingerprint
      entry.relayMetrics ts h
  exact ⟨block, by simp [processQueueEntry, ensureFreshChainBeforeWrite, happ], hlet⟩

/-- Witness for C2's amended statement on the concrete genesis chain. -/
theorem c2_amended_witness :
    ensureFreshChainBeforeWrite constHash none "relay.local" none none [genesisT0] =
      (Except.ok (SyncOutcome.skipped (some "No directory configured")), [genesisT0]) ∧
    ∃ block,
      processQueueEntry constHash none "relay.local" none none [genesisT0] entryE1 "t1" =
        Except.ok (some (block, [genesisT0] ++ [block])) ∧
      block.letters =
        [{ ownerFingerprint := entryE1.ownerFingerprint,
           payload := entryE1.letterPayload }] :=
  c2_amended_no_directory_write_proceeds constHash "relay.local" none none
    [genesisT0] genesisT0 entryE1 "t1" (by decide)

/-- C4: when the sync engine reports the skipped reason exactly
"No alternate relay available" (directory configured, but no alternate
relay could be chosen: either none, or only the relay itself), the
pre-write sync succeeds, the letter's block is appended to the active
chain, and the queue resolves the submitter's entry with that block. -/
theorem c4_bootstrap_skip_is_success (H : BlockContent → String) (url selfOnion : String)
    (chosen : Option RelayChoice) (fetched : Option (List Block))
    (blocks : List Block) (prev : Block) (entry : QueueEntry)
    (rest : List QueueEntry) (ts : String)
    (hlast : blocks.getLast? = some prev)
    (hchosen : chosen = none ∨ ∃ rc, chosen = some rc ∧ rc.onion = selfOnion) :
    syncFromDirectory H (some url) selfOnion chosen fetched blocks =
      (Except.ok (SyncOutcome.skipped (some "No alternate relay available")), blocks) ∧
    ensureFreshChainBeforeWrite H (some url) selfOnion chosen fetched blocks =
      (Except.ok (SyncOutcome.skipped (some "No alternate relay available")), blocks) ∧
    ∃ block,
      appendLetterBlock H blocks entry.letterPayload entry.ownerFingerprint
        entry.relayMetrics ts = some (block, blocks ++ [block]) ∧
      drainStep H (some url) selfOnion chosen fetched blocks (entry :: rest) ts =
        (rest, blocks ++ [block], QueueStepOutcome.resolved entry.id block) := by
  have hsync :
      syncFromDirectory H (some url) selfOnion chosen fetched blocks =
        (Except.ok (SyncOutcome.skipped (some "No alternate relay available")), blocks) := by
    rcases hchosen with hnone | ⟨rc, hrc, hself⟩
    · simp [syncFromDirectory, hnone]
    · simp [syncFromDirectory, hrc, hself]
  have hensure :
      ensureFreshChainBeforeWrite H (some url) selfOnion chosen fetched blocks =
        (Except.ok (SyncOutcome.skipped (some "No alternate relay available")), blocks) := by
    simp [ensureFreshChainBeforeWrite, hsync]
  obtain ⟨block, happ, _, _, _, _⟩ :=
    append_spec H blocks prev entry.letterPayload entry.ownerFingerprint
      entry.relayMetrics ts hlast
  refine ⟨hsync, hensure, block, happ, ?_⟩
  simp [drainStep, processQueueEntry, hensure, happ]

/-- Witness for C4: directory configured at a concrete URL, empty registry
(no relay chosen), one queued letter on the genesis chain. -/
theorem c4_witness :
    syncFromDirectory constHash (some "http://localhost:4600") "relay.local" none none
      [genesisT0] =
      (Except.ok (SyncOutcome.skipped (some "No alternate relay available")),
        [genesisT0]) ∧
    ensureFreshChainBeforeWrite constHash (some "http://localhost:4600") "relay.local"
      none none [genesisT0] =
      (Except.ok (SyncOutcome.skipped (some "No alternate relay available")),
        [genesisT0]) ∧
    ∃ block,
      appendLetterBlock constHash [genesisT0] entryE1.letterPayload
        entryE1.ownerFingerprint entryE1.relayMetrics "t1" =
        some (block, [genesisT0] ++ [block]) ∧
      drainStep constHash (some "http://localhost:4600") "relay.local" none none
        [genesisT0] [entryE1] "t1" =
        ([], [genesisT0] ++ [block], QueueStepOutcome.resolved entryE1.id block) :=
  c4_bootstrap_skip_is_success constHash "http://localhost:4600" "relay.local" none none
    [genesisT0] genesisT0 entryE1 [] "t1" (by decide) (Or.inl rfl)

/-- Helper: the canonical manifest after an upsert is
`updateCanonicalManifest` of the previous one at the record's summary. -/
theorem upsert_canonical_eq (st : DirState) (p : RelayPayload) (now genFp : String) :
    (upsertRelay st p now genFp).1.canonicalManifest =
      updateCanonicalManifest st.canonicalManifest
        ((upsertRelay st p now genFp).2.chainSummary) := by
  rcases hf : st.relays.find? (fun r => r.onion == p.onion) with _ | e <;>
    simp [upsertRelay, hf, mergeRecordWithPayload, freshRecordFromPayload]

/-- Helper: `updateCanonicalManifest` never shrinks the manifest length. -/
theorem updateCanonicalManifest_le (cur : ChainSummary) (cand : JsonField ChainSummary) :
    cur.length ≤ (updateCanonicalManifest cur cand).length := by
  rcases cand with _ | _ | c
  · simp [updateCanonicalManifest]
  · simp [updateCanonicalManifest]
  · simp only [updateCanonicalManifest]
    split
    · omega
    · exact le_refl _

/-- Helper: `updateCanonicalManifest` changes its output only to a
strictly longer present candidate. -/
theorem updateCanonicalManifest_changes (cur : ChainSummary)
    (cand : JsonField ChainSummary)
    (hne : updateCanonicalManifest cur cand ≠ cur) :
    ∃ c, cand = JsonField.value c ∧ cur.length < c.length ∧
      updateCanonicalManifest cur cand = c := by
  rcases cand with _ | _ | c
  · simp [updateCanonicalManifest] at hne
  · simp [updateCanonicalManifest] at hne
  · simp only [updateCanonicalManifest] at hne ⊢
    by_cases hlt : cur.length < c.length
    · exact ⟨c, rfl, hlt, by simp [hlt]⟩
    · simp [hlt] at hne

/-- C6: the canonical manifest is monotone.  A single `upsertRelay` never
shrinks its length; when it changes it at all, it is replaced by the
relay's reported chain summary and only because that summary is strictly
longer; and across any sequence of upserts the length never decreases. -/
theorem c6_canonical_manifest_monotone (st : DirState) (p : RelayPayload)
    (now genFp : String) (ps : List (RelayPayload × String × String)) :
    st.canonicalManifest.length ≤
      (upsertRelay st p now genFp).1.canonicalManifest.length ∧
    ((upsertRelay st p now genFp).1.canonicalManifest ≠ st.canonicalManifest →
      ∃ c, (upsertRelay st p now genFp).2.chainSummary = JsonField.value c ∧
        st.canonicalManifest.length < c.length ∧
        (upsertRelay st p now genFp).1.canonicalManifest = c) ∧
    st.canonicalManifest.length ≤ (applyUpserts st ps).canonicalManifest.length := by
  refine ⟨?_, ?_, ?_⟩
  · rw [upsert_canonical_eq]
    exact updateCanonicalManifest_le _ _
  · intro hne
    rw [upsert_canonical_eq] at hne ⊢
    exact updateCanonicalManifest_changes _ _ hne
  · induction ps generalizing st with
    | nil => exact le_refl _
    | cons hd tl ih =>
      rcases hd with ⟨p', now', genFp'⟩
      refine le_trans ?_ (ih (upsertRelay st p' now' genFp').1)
      rw [upsert_canonical_eq]
      exact updateCanonicalManifest_le _ _

/-- Witness for C6: a relay reporting a one-block summary to a fresh
directory grows the canonical manifest from length 0 to that summary. -/
theorem c6_witness :
    dirSt0.canonicalManifest.length ≤
      (upsertRelay dirSt0 payloadP1 "t1" "g1").1.canonicalManifest.length ∧
    (∃ c, (upsertRelay dirSt0 payloadP1 "t1" "g1").2.chainSummary = JsonField.value c ∧
      dirSt0.canonicalManifest.length < c.length ∧
      (upsertRelay dirSt0 payloadP1 "t1" "g1").1.canonicalManifest = c) :=
  ⟨(c6_canonical_manifest_monotone dirSt0 payloadP1 "t1" "g1" []).1,
    (c6_canonical_manifest_monotone dirSt0 payloadP1 "t1" "g1" []).2.1 (by decide)⟩

/-- Helper: the running best chosen by `selectBest` is the starting best
or one of the list elements. -/
theorem selectBest_mem (l : List RelayInfo) :
    ∀ best r, selectBest best l = r → r = best ∨ r ∈ l := by
  induction l with
  | nil => intro best r hr; exact Or.inl hr.symm
  | cons c rest ih =>
    intro best r hr
    rw [selectBest] at hr
    by_cases hc : scoreRelay best < scoreRelay c
    · rw [if_pos hc] at hr
      rcases ih c r hr with h | h
      · exact Or.inr (h ▸ List.mem_cons_self c rest)
      · exact Or.inr (List.mem_cons_of_mem c h)
    · rw [if_neg hc] at hr
      rcases ih best r hr with h | h
      · exact Or.inl h
      · exact Or.inr (List.mem_cons_of_mem c h)

/-- Helper: the running best's score dominates the starting best and every
list element. -/
theorem selectBest_le (l : List RelayInfo) :
    ∀ best r, selectBest best l = r →
      scoreRelay best ≤ scoreRelay r ∧ ∀ x ∈ l, scoreRelay x ≤ scoreRelay r := by
  induction l with
  | nil => intro best r hr; exact ⟨hr ▸ le_refl _, by simp⟩
  | cons c rest ih =>
    intro best r hr
    rw [selectBest] at hr
    by_cases hc : scoreRelay best < scoreRelay c
    · rw [if_pos hc] at hr
      obtain ⟨h1, h2⟩ := ih c r hr
      refine ⟨le_trans (le_of_lt hc) h1, ?_⟩
      intro x hx
      rcases List.mem_cons.mp hx with hx | hx
      · rw [hx]; exact h1
      · exact h2 x hx
    · rw [if_neg hc] at hr
      obtain ⟨h1, h2⟩ := ih best r hr
      refine ⟨h1, ?_⟩
      intro x hx
      rcases List.mem_cons.mp hx with hx | hx
      · rw [hx]; exact le_trans (le_of_not_lt hc) h1
      · exact h2 x hx

/-- Helper: either the running best survives, or the result sits at a
position in the list before which every element scores strictly lower
(first-maximum / stable-sort tie-breaking). -/
theorem selectBest_first (l : List RelayInfo) :
    ∀ best r, selectBest best l = r → r = best ∨
      ∃ l1 l2, l = l1 ++ r :: l2 ∧ scoreRelay best < scoreRelay r ∧
        ∀ x ∈ l1, scoreRelay x < scoreRelay r := by
  induction l with
  | nil => intro best r hr; exact Or.inl hr.symm
  | cons c rest ih =>
    intro best r hr
    rw [selectBest] at hr
    by_cases hc : scoreRelay best < scoreRelay c
    · rw [if_pos hc] at hr
      rcases ih c r hr with h | ⟨l1, l2, heq, hlt, hall⟩
      · right
        refine ⟨[], rest, ?_, h ▸ hc, by simp⟩
        rw [h]; rfl
      · right
        refine ⟨c :: l1, l2, ?_, lt_trans hc hlt, ?_⟩
        · rw [heq]; rfl
        · intro x hx
          rcases List.mem_cons.mp hx with hx | hx
          · rw [hx]; exact hlt
          · exact hall x hx
    · rw [if_neg hc] at hr
      rcases ih best r hr with h | ⟨l1, l2, heq, hlt, hall⟩
      · exact Or.inl h
      · right
        refine ⟨c :: l1, l2, ?_, hlt, ?_⟩
        · rw [heq]; rfl
        · intro x hx
          rcases List.mem_cons.mp hx with hx | hx
          · rw [hx]; exact lt_of_le_of_lt (le_of_not_lt hc) hlt
          · exact hall x hx

/-- C7 as amended: `selectBestRelay` returns `none` on the empty list and
otherwise the first input-order candidate maximizing `scoreRelay`, where
`latencyMs` defaults to 1500 ms only when missing (a present value ≤ 0 is
used as-is), reachability and freshness default to 0.5 and the GFW penalty
is 0.2.  Determinism on re-invocation is immediate since the selector is a
pure function of the list. -/
theorem c7_amended_selectBestRelay_first_argmax (relays : List RelayInfo)
    (r : RelayInfo) (h : selectBestRelay relays = some r) :
    r ∈ relays ∧ (∀ x ∈ relays, scoreRelay x ≤ scoreRelay r) ∧
    ∃ l1 l2, relays = l1 ++ r :: l2 ∧ ∀ x ∈ l1, scoreRelay x < scoreRelay r := by
  rcases relays with _ | ⟨hd, tl⟩
  · exact absurd h (by simp [selectBestRelay])
  · have hr : selectBest hd tl = r := by
      have := h
      rw [selectBestRelay] at this
      exact Option.some.inj this
    obtain ⟨h1, h2⟩ := selectBest_le tl hd r hr
    have hmem : r ∈ hd :: tl := by
      rcases selectBest_mem tl hd r hr with hm | hm
      · rw [hm]; exact List.mem_cons_self hd tl
      · exact List.mem_cons_of_mem hd hm
    have hmax : ∀ x ∈ hd :: tl, scoreRelay x ≤ scoreRelay r := by
      intro x hx
      rcases List.mem_cons.mp hx with hx | hx
      · rw [hx]; exact h1
      · exact h2 x hx
    refine ⟨hmem, hmax, ?_⟩
    rcases selectBest_first tl hd r hr with hfst | ⟨l1, l2, heq, hlt, hall⟩
    · exact ⟨[], tl, by rw [hfst]; rfl, by simp⟩
    · refine ⟨hd :: l1, l2, ?_, ?_⟩
      · rw [heq]; rfl
      · intro x hx
        rcases List.mem_cons.mp hx with hx | hx
        · rw [hx]; exact hlt
        · exact hall x hx

/-- Witness for C7's amended statement on a concrete singleton list. -/
theorem c7_amended_witness :
    relaySlow ∈ [relaySlow] ∧
    (∀ x ∈ [relaySlow], scoreRelay x ≤ scoreRelay relaySlow) ∧
    ∃ l1 l2, [relaySlow] = l1 ++ relaySlow :: l2 ∧
      ∀ x ∈ l1, scoreRelay x < scoreRelay relaySlow :=
  c7_amended_selectBestRelay_first_argmax [relaySlow] relaySlow rfl

/-- Counterexample for C7: the claim's scoring treats `latencyMs ≤ 0` as
1500 ms, but the code only substitutes 1500 for a missing value.  For a
relay reporting 0 ms latency the code scores 0.5 while the claim's formula
scores 0.25, so on `[relayZeroLatency, relaySlow]` the code returns the
0 ms relay although the claim's score of the other candidate is strictly
higher — the returned relay does not maximize the claimed score. -/
theorem c7_counterexample :
    selectBestRelay [relayZeroLatency, relaySlow] = some relayZeroLatency ∧
    scoreRelaySpec relayZeroLatency < scoreRelaySpec relaySlow ∧
    scoreRelay relayZeroLatency = 1 / 2 ∧
    scoreRelaySpec relayZeroLatency = 1 / 4 := by
  refine ⟨?_, ?_, ?_, ?_⟩
  · have hlt : ¬ scoreRelay relayZeroLatency < scoreRelay relaySlow := by
      norm_num [scoreRelay, relayZeroLatency, relaySlow]
    simp [selectBestRelay, selectBest, hlt]
  · norm_num [scoreRelaySpec, relayZeroLatency, relaySlow]
  · norm_num [scoreRelay, relayZeroLatency]
  · norm_num [scoreRelaySpec, relayZeroLatency]

/-- Helper: the scan loop of `compareManifests` finds no divergence exactly
when the two hash lists agree at every index below the common length. -/
theorem firstDiverge_none_iff (xs : List String) :
    ∀ ys, firstDiverge xs ys = none ↔
      ∀ i, i < min xs.length ys.length → xs[i]? = ys[i]? := by
  induction xs with
  | nil => intro ys; simp [firstDiverge]
  | cons x xs ih =>
    intro ys
    rcases ys with _ | ⟨y, ys⟩
    · simp [firstDiverge]
    · by_cases hxy : x = y
      · subst hxy
        rw [firstDiverge, if_neg (by simp), Option.map_eq_none', ih ys]
        constructor
        · intro h i hi
          cases i with
          | zero => simp
          | succ n =>
            simp only [List.getElem?_cons_succ]
            refine h n ?_
            simp only [List.length_cons, Nat.lt_min] at hi ⊢
            omega
        · intro h i hi
          have := h (i + 1) (by simp only [List.length_cons, Nat.lt_min] at hi ⊢; omega)
          simpa using this
      · rw [firstDiverge, if_pos hxy]
        constructor
        · intro h; exact absurd h (by simp)
        · intro h
          exfalso
          have h0 := h 0 (by simp)
          simp only [List.getElem?_cons_zero, Option.some.injEq] at h0
          exact hxy h0

/-- Helper: the decidable agreement check coincides with the absence of a
divergence point. -/
theorem hashesAgree_iff_firstDiverge_none (xs ys : List String) :
    hashesAgree xs ys = true ↔ firstDiverge xs ys = none := by
  rw [firstDiverge_none_iff xs ys]
  simp [hashesAgree, List.all_eq_true, List.mem_range]

/-- Helper: the `syncStatus` flags computed by `upsertRelay` from
`compareManifests` coincide with the spec-side classification
`specSyncFlags` of the two hash lists. -/
theorem mkSyncStatus_eq_specFlags (canonical : ChainSummary)
    (cand : JsonField ChainSummary) :
    (mkSyncStatus (compareManifests canonical cand)).needsSync =
      (specSyncFlags canonical.hashes (summaryHashes cand)).1 ∧
    (mkSyncStatus (compareManifests canonical cand)).needsRepair =
      (specSyncFlags canonical.hashes (summaryHashes cand)).2 := by
  by_cases hcanon : canonical.hashes.length = 0
  · have hE : canonical.hashes.isEmpty = true := by
      simpa [List.isEmpty_iff_length_eq_zero] using hcanon
    rcases cand with _ | _ | c <;>
      simp [compareManifests, summaryHashes, hcanon, mkSyncStatus, specSyncFlags, hE]
  · have hE : ¬ canonical.hashes.isEmpty = true := by
      simpa [List.isEmpty_iff_length_eq_zero, List.length_eq_zero] using hcanon
    rcases cand with _ | _ | c
    · simp [compareManifests, summaryHashes, hcanon, mkSyncStatus, specSyncFlags, hE]
    · simp [compareManifests, summaryHashes, hcanon, mkSyncStatus, specSyncFlags, hE]
    · by_cases hcand : c.hashes.length = 0
      · have hcE : c.hashes.isEmpty = true := by
          simpa [List.isEmpty_iff_length_eq_zero] using hcand
        simp [compareManifests, summaryHashes, hcanon, hcand, mkSyncStatus,
          specSyncFlags, hE, hcE]
      · have hcE : ¬ c.hashes.isEmpty = true := by
          simpa [List.isEmpty_iff_length_eq_zero, List.length_eq_zero] using hcand
        rcases hfd : firstDiverge canonical.hashes c.hashes with _ | i
        · have hagree : hashesAgree canonical.hashes c.hashes = true :=
            (hashesAgree_iff_firstDiverge_none _ _).mpr hfd
          by_cases hlen : c.hashes.length < canonical.hashes.length
          · have hsub : canonical.hashes.length - c.hashes.length ≠ 0 := by omega
            simp [compareManifests, summaryHashes, hcanon, hcand, hfd, mkSyncStatus,
              specSyncFlags, hE, hcE, hagree, hlen, hsub]
          · simp [compareManifests, summaryHashes, hcanon, hcand, hfd, mkSyncStatus,
              specSyncFlags, hE, hcE, hagree, hlen]
        · have hagree : ¬ hashesAgree canonical.hashes c.hashes = true := by
            rw [hashesAgree_iff_firstDiverge_none, hfd]
            simp
          simp [compareManifests, summaryHashes, hcanon, hcand, hfd, mkSyncStatus,
            specSyncFlags, hE, hcE, hagree]

/-- Helper: the record returned by `upsertRelay` carries the `syncStatus`
computed from `compareManifests` of the post-update canonical manifest
against the record's chain summary. -/
theorem upsert_syncStatus_eq (st : DirState) (p : RelayPayload) (now genFp : String) :
    (upsertRelay st p now genFp).2.syncStatus =
      some (mkSyncStatus
        (compareManifests (upsertRelay st p now genFp).1.canonicalManifest
          ((upsertRelay st p now genFp).2.chainSummary))) := by
  rcases hf : st.relays.find? (fun r => r.onion == p.onion) with _ | e <;>
    simp [upsertRelay, hf, mergeRecordWithPayload, freshRecordFromPayload]

/-- C8 as amended: after every `upsertRelay`, the record's `syncStatus`
flags equal the classification of the record's manifest hashes against the
post-update canonical manifest hashes: empty canonical → neither flag; an
empty or absent relay manifest against a non-empty canonical →
`needsRepair` (not `needsSync`, the code's `missing` branch carries no
`missingCount`); agreement up to the shorter length with a strictly
shorter relay manifest → `needsSync`; divergence within the shorter
length → `needsRepair`; otherwise neither flag. -/
theorem c8_amended_syncStatus_classification (st : DirState) (p : RelayPayload)
    (now genFp : String) :
    ∃ details,
      (upsertRelay st p now genFp).2.syncStatus =
        some
          { needsSync :=
              (specSyncFlags (upsertCanonHashes st p now genFp)
                (upsertCandHashes st p now genFp)).1,
            needsRepair :=
              (specSyncFlags (upsertCanonHashes st p now genFp)
                (upsertCandHashes st p now genFp)).2,
            details := details } := by
  obtain ⟨h1, h2⟩ :=
    mkSyncStatus_eq_specFlags (upsertRelay st p now genFp).1.canonicalManifest
      ((upsertRelay st p now genFp).2.chainSummary)
  refine ⟨compareManifests (upsertRelay st p now genFp).1.canonicalManifest
    ((upsertRelay st p now genFp).2.chainSummary), ?_⟩
  rw [upsert_syncStatus_eq st p now genFp]
  simp only [upsertCanonHashes, upsertCandHashes, mkSyncStatus] at h1 h2 ⊢
  rw [h1, h2]

/-- Counterexample for C8: a relay reporting an empty manifest against a
one-hash canonical manifest.  The relay's hashes (none at all) vacuously
equal the canonical's up to the shorter length and are strictly fewer, so
the claim requires `needsSync = true` and `needsRepair = false`; the code
instead classifies this as `needsSync = false`, `needsRepair = true`. -/
theorem c8_counterexample :
    (upsertRelay dirStC8 payloadEmptySummary "t1" "g1").2.syncStatus.map
        SyncStatus.needsSync = some false ∧
    (upsertRelay dirStC8 payloadEmptySummary "t1" "g1").2.syncStatus.map
        SyncStatus.needsRepair = some true ∧
    upsertCandHashes dirStC8 payloadEmptySummary "t1" "g1" = [] ∧
    upsertCanonHashes dirStC8 payloadEmptySummary "t1" "g1" = ["h"] := by
  decide

/-- Helper: overriding with the same payload field twice is the same as
overriding once. -/
theorem spreadField_idem {α : Type} (old new : JsonField α) :
    spreadField (spreadField old new) new = spreadField old new := by
  cases new <;> rfl

/-- Helper: every entry of `b` has its key in `b`, so the left side of a
spread-merge with `b` keeps none of `b`'s entries. -/
theorem filter_not_any_self (b : List (String × String)) :
    b.filter (fun kv => !(b.any (fun kv2 => kv2.1 == kv.1))) = [] := by
  rw [List.filter_eq_nil_iff]
  intro kv hkv
  simp only [Bool.not_eq_true', Bool.not_eq_false]
  exact List.any_eq_true.mpr ⟨kv, hkv, by simp⟩

/-- Helper: the spread-merge of connection metadata is idempotent in its
right argument. -/
theorem mergeMeta_idem (a b : List (String × String)) :
    mergeMeta (mergeMeta a b) b = mergeMeta a b := by
  unfold mergeMeta
  rw [List.filter_append, filter_not_any_self b, List.append_nil, List.filter_filter]
  simp only [Bool.and_self]

/-- Helper: merging a metadata map with itself returns it unchanged. -/
theorem mergeMeta_self (b : List (String × String)) : mergeMeta b b = b := by
  unfold mergeMeta
  rw [filter_not_any_self b, List.nil_append]

/-- Helper: feeding the same candidate into `updateCanonicalManifest` twice
is the same as feeding it once. -/
theorem updateCanonicalManifest_idem (cur : ChainSummary) (cand : JsonField ChainSummary) :
    updateCanonicalManifest (updateCanonicalManifest cur cand) cand =
      updateCanonicalManifest cur cand := by
  rcases cand with _ | _ | c
  · rfl
  · rfl
  · simp only [updateCanonicalManifest]
    by_cases hlt : cur.length < c.length
    · simp [hlt]
    · simp [hlt]

/-- Helper: after replacing every record keyed `o` by `rec'` (itself keyed
`o`), `find?` on key `o` returns `rec'`, provided some record had key `o`. -/
theorem find_replaced (l : List RelayRecord) (rec' : RelayRecord) (o : String)
    (h : rec'.onion = o) (hany : l.any (fun r => r.onion == o) = true) :
    (l.map (fun r => if r.onion == o then rec' else r)).find?
      (fun r => r.onion == o) = some rec' := by
  induction l with
  | nil => simp at hany
  | cons r rest ih =>
    by_cases hr : r.onion = o
    · have hcond : (r.onion == o) = true := by rw [hr]; exact beq_self_eq_true o
      have hpred : (rec'.onion == o) = true := by rw [h]; exact beq_self_eq_true o
      rw [List.map_cons, if_pos hcond]
      exact List.find?_cons_of_pos (p := fun x : RelayRecord => x.onion == o) _ hpred
    · have hcond : (r.onion == o) = false := beq_eq_false_iff_ne.mpr hr
      rw [List.map_cons, if_neg (by simp [hcond])]
      have hstep := List.find?_cons_of_neg (p := fun x : RelayRecord => x.onion == o)
        (List.map (fun x : RelayRecord => if x.onion == o then rec' else x) rest) (a := r)
        (by simp [hcond])
      rw [hstep]
      refine ih ?_
      simpa [List.any_cons, hcond] using hany

/-- Helper: the record written by `upsertRelay` is keyed by the payload's
onion. -/
theorem upsert_onion (st : DirState) (p : RelayPayload) (now genFp : String) :
    (upsertRelay st p now genFp).2.onion = p.onion := by
  rcases hf : st.relays.find? (fun r => r.onion == p.onion) with _ | e <;>
    simp [upsertRelay, hf, mergeRecordWithPayload, freshRecordFromPayload]

/-- Helper: immediately after an upsert for `p.onion`, looking that onion
up in the registry finds exactly the record the upsert returned. -/
theorem upsert_find_self (st : DirState) (p : RelayPayload) (now genFp : String) :
    (upsertRelay st p now genFp).1.relays.find? (fun r => r.onion == p.onion) =
      some (upsertRelay st p now genFp).2 := by
  rcases hf : st.relays.find? (fun r => r.onion == p.onion) with _ | e
  · simp only [upsertRelay, hf]
    rw [show (freshRecordFromPayload p now genFp).onion = p.onion from rfl]
    apply find_replaced
    · rfl
    · refine List.any_eq_true.mpr ⟨freshRecordFromPayload p now genFp, ?_, ?_⟩
      · simp
      · simp [freshRecordFromPayload]
  · simp only [upsertRelay, hf]
    rw [show (mergeRecordWithPayload e p now).onion = p.onion from rfl]
    apply find_replaced
    · rfl
    · have hpe := List.find?_some hf
      exact List.any_eq_true.mpr ⟨e, List.mem_of_find?_eq_some hf, hpe⟩

/-- Helper: overriding a field with itself changes nothing. -/
theorem spreadField_self {α : Type} (a : JsonField α) : spreadField a a = a := by
  cases a <;> rfl

/-- Helper: unless the payload carries a `null` or empty-string
fingerprint, and provided its `connectionMeta` key is present with an
object, the record an upsert writes absorbs a second application of the
same payload field-by-field: every payload-spread field, the fingerprint,
and the connection metadata are left unchanged by a repeated merge. -/
theorem upsert_record_fields (st : DirState) (p : RelayPayload) (now genFp : String)
    (hfp1 : p.fingerprint ≠ JsonField.nullVal)
    (hfp2 : p.fingerprint ≠ JsonField.value "")
    (hcm : ∃ m, p.connectionMeta = JsonField.value m) :
    (upsertRelay st p now genFp).2.onion = p.onion ∧
    spreadField (upsertRelay st p now genFp).2.publicUrl p.publicUrl =
      (upsertRelay st p now genFp).2.publicUrl ∧
    spreadField (upsertRelay st p now genFp).2.publicAccessUrl p.publicAccessUrl =
      (upsertRelay st p now genFp).2.publicAccessUrl ∧
    spreadField (upsertRelay st p now genFp).2.nickname p.nickname =
      (upsertRelay st p now genFp).2.nickname ∧
    spreadField (upsertRelay st p now genFp).2.fingerprint p.fingerprint =
      (upsertRelay st p now genFp).2.fingerprint ∧
    spreadField (upsertRelay st p now genFp).2.lastSeenIp p.lastSeenIp =
      (upsertRelay st p now genFp).2.lastSeenIp ∧
    spreadField (upsertRelay st p now genFp).2.latencyMs p.latencyMs =
      (upsertRelay st p now genFp).2.latencyMs ∧
    spreadField (upsertRelay st p now genFp).2.reachability p.reachability =
      (upsertRelay st p now genFp).2.reachability ∧
    spreadField (upsertRelay st p now genFp).2.gfwBlocked p.gfwBlocked =
      (upsertRelay st p now genFp).2.gfwBlocked ∧
    spreadField (upsertRelay st p now genFp).2.chainSummary p.chainSummary =
      (upsertRelay st p now genFp).2.chainSummary ∧
    JsonField.value
        (mergeMeta (metaOrEmpty (upsertRelay st p now genFp).2.connectionMeta)
          (metaOrEmpty p.connectionMeta)) =
      (upsertRelay st p now genFp).2.connectionMeta := by
  obtain ⟨m, hm⟩ := hcm
  have hfpr :
      ∀ g : String,
        spreadField
          (JsonField.value (match p.fingerprint with
            | JsonField.value f => if f = "" then g else f
            | _ => g)) p.fingerprint =
          JsonField.value (match p.fingerprint with
            | JsonField.value f => if f = "" then g else f
            | _ => g) := by
    intro g
    rcases hc : p.fingerprint with _ | _ | f
    · simp [hc, spreadField]
    · exact absurd hc hfp1
    · have hne : f ≠ "" := by
        intro hcontra
        exact hfp2 (by rw [hc, hcontra])
      simp [hc, spreadField, if_neg hne]
  rcases hf : st.relays.find? (fun r => r.onion == p.onion) with _ | e <;>
    simp [upsertRelay, hf, mergeRecordWithPayload, freshRecordFromPayload,
      spreadField_idem, spreadField_self, mergeMeta_idem, mergeMeta_self,
      metaOrEmpty, hfpr genFp, hm]

/-- Helper: a record whose payload-spread fields are already saturated is a
fixed point of the merge, up to the refreshed `lastSeen`. -/
theorem mergeRecord_fixpoint (r : RelayRecord) (p : RelayPayload) (t2 : String)
    (h0 : r.onion = p.onion)
    (h1 : spreadField r.publicUrl p.publicUrl = r.publicUrl)
    (h2 : spreadField r.publicAccessUrl p.publicAccessUrl = r.publicAccessUrl)
    (h3 : spreadField r.nickname p.nickname = r.nickname)
    (h4 : spreadField r.fingerprint p.fingerprint = r.fingerprint)
    (h5 : spreadField r.lastSeenIp p.lastSeenIp = r.lastSeenIp)
    (h6 : spreadField r.latencyMs p.latencyMs = r.latencyMs)
    (h7 : spreadField r.reachability p.reachability = r.reachability)
    (h8 : spreadField r.gfwBlocked p.gfwBlocked = r.gfwBlocked)
    (h9 : spreadField r.chainSummary p.chainSummary = r.chainSummary)
    (h10 : JsonField.value
        (mergeMeta (metaOrEmpty r.connectionMeta) (metaOrEmpty p.connectionMeta)) =
      r.connectionMeta) :
    mergeRecordWithPayload r p t2 = { r with lastSeen := t2 } := by
  cases r
  simp only at h0 h1 h2 h3 h4 h5 h6 h7 h8 h9 h10
  simp [mergeRecordWithPayload, h0, h1, h2, h3, h4, h5, h6, h7, h8, h9, h10]

/-- C9 as amended: `upsertRelay` is idempotent modulo `lastSeen` for every
registry state and every heartbeat payload whose `fingerprint` key, when
present, is neither `null` nor the empty string, and whose
`connectionMeta` key is present with an object: applying the same payload
twice yields a record equal to the first one except for the refreshed
`lastSeen`, adds no record to the registry, and leaves the canonical
manifest unchanged.  (A `null` or empty fingerprint is excluded because
the insert branch's `payload.fingerprint || generateFingerprint(...)`
discards falsy values while the merge branch's spread keeps them; an
absent or `null` `connectionMeta` is excluded because the merge branch
always materializes a present `connectionMeta` object.) -/
theorem c9_amended_upsert_idempotent (st : DirState) (p : RelayPayload)
    (t1 t2 g1 g2 : String)
    (hfp1 : p.fingerprint ≠ JsonField.nullVal)
    (hfp2 : p.fingerprint ≠ JsonField.value "")
    (hcm : ∃ m, p.connectionMeta = JsonField.value m) :
    (upsertRelay (upsertRelay st p t1 g1).1 p t2 g2).2 =
      { (upsertRelay st p t1 g1).2 with lastSeen := t2 } ∧
    (upsertRelay (upsertRelay st p t1 g1).1 p t2 g2).1.relays.length =
      (upsertRelay st p t1 g1).1.relays.length ∧
    (upsertRelay (upsertRelay st p t1 g1).1 p t2 g2).1.canonicalManifest =
      (upsertRelay st p t1 g1).1.canonicalManifest := by
  obtain ⟨honion, hpu, hpau, hnick, hfpf, hip, hlat, hreach, hgfw, hcs, hcmm⟩ :=
    upsert_record_fields st p t1 g1 hfp1 hfp2 hcm
  have hmerge : mergeRecordWithPayload (upsertRelay st p t1 g1).2 p t2 =
      { (upsertRelay st p t1 g1).2 with lastSeen := t2 } :=
    mergeRecord_fixpoint _ p t2 honion hpu hpau hnick hfpf hip hlat hreach hgfw hcs hcmm
  have hfind := upsert_find_self st p t1 g1
  have hcanon1 := upsert_canonical_eq st p t1 g1
  have hstatus1 := upsert_syncStatus_eq st p t1 g1
  generalize hgen : upsertRelay st p t1 g1 = s1 at hmerge hfind hcanon1 hstatus1 ⊢
  obtain ⟨⟨relays1, canonical1⟩, rec1⟩ := s1
  simp only at hmerge hfind hcanon1 hstatus1 ⊢
  have hc2 : updateCanonicalManifest canonical1 rec1.chainSummary = canonical1 := by
    rw [hcanon1]; exact updateCanonicalManifest_idem _ _
  simp only [upsertRelay, hfind, hmerge]
  refine ⟨?_, by simp, by simpa using hc2⟩
  simp only [hc2]
  rw [← hstatus1]

/-- Counterexample for C9: three payloads break idempotence-mod-`lastSeen`.
With `fingerprint: ""` or `fingerprint: null` (valid bodies reaching
`upsertRelay` through both `/api/relays` routes), the first upsert stores
the generated fingerprint (the JS `||` treats both as falsy) but the second
upsert's object spread overwrites it with the payload's falsy value; and
with no `connectionMeta` key at all, the first record lacks the key while
the second upsert materializes a present empty `connectionMeta` object.
In each case a field other than `lastSeen` changes between the two
applications. -/
theorem c9_counterexample :
    ((upsertRelay dirSt0 payloadEmptyFp "t1" "g1").2.fingerprint =
        JsonField.value "g1" ∧
      (upsertRelay (upsertRelay dirSt0 payloadEmptyFp "t1" "g1").1 payloadEmptyFp
          "t2" "g2").2.fingerprint = JsonField.value "" ∧
      (upsertRelay (upsertRelay dirSt0 payloadEmptyFp "t1" "g1").1 payloadEmptyFp
          "t2" "g2").2 ≠
        { (upsertRelay dirSt0 payloadEmptyFp "t1" "g1").2 with lastSeen := "t2" }) ∧
    ((upsertRelay dirSt0 payloadNullFp "t1" "g1").2.fingerprint =
        JsonField.value "g1" ∧
      (upsertRelay (upsertRelay dirSt0 payloadNullFp "t1" "g1").1 payloadNullFp
          "t2" "g2").2.fingerprint = JsonField.nullVal ∧
      (upsertRelay (upsertRelay dirSt0 payloadNullFp "t1" "g1").1 payloadNullFp
          "t2" "g2").2 ≠
        { (upsertRelay dirSt0 payloadNullFp "t1" "g1").2 with lastSeen := "t2" }) ∧
    ((upsertRelay dirSt0 payloadNoMeta "t1" "g1").2.connectionMeta =
        JsonField.absent ∧
      (upsertRelay (upsertRelay dirSt0 payloadNoMeta "t1" "g1").1 payloadNoMeta
          "t2" "g2").2.connectionMeta = JsonField.value [] ∧
      (upsertRelay (upsertRelay dirSt0 payloadNoMeta "t1" "g1").1 payloadNoMeta
          "t2" "g2").2 ≠
        { (upsertRelay dirSt0 payloadNoMeta "t1" "g1").2 with lastSeen := "t2" }) := by
  decide

/-- Witness for C9's amended statement: repeating the heartbeat
`payloadP1` against a fresh directory. -/
theorem c9_amended_witness :
    (upsertRelay (upsertRelay dirSt0 payloadP1 "t1" "g1").1 payloadP1 "t2" "g2").2 =
      { (upsertRelay dirSt0 payloadP1 "t1" "g1").2 with lastSeen := "t2" } ∧
    (upsertRelay (upsertRelay dirSt0 payloadP1 "t1" "g1").1 payloadP1
        "t2" "g2").1.relays.length =
      (upsertRelay dirSt0 payloadP1 "t1" "g1").1.relays.length ∧
    (upsertRelay (upsertRelay dirSt0 payloadP1 "t1" "g1").1 payloadP1
        "t2" "g2").1.canonicalManifest =
      (upsertRelay dirSt0 payloadP1 "t1" "g1").1.canonicalManifest :=
  c9_amended_upsert_idempotent dirSt0 payloadP1 "t1" "t2" "g1" "g2" (by decide)
    (by decide) ⟨[], rfl⟩

end LSAW
